import Mathlib

/-!
Formal model of the survey flight-path planning engine of the
projectscopingtool repository.

The source is TypeScript: `src/lib/qgc.ts` (spacing calculator and mission
serializer) and `src/App.tsx` (grid builder, leg stitching, path
orientation, battery segmenter).  JavaScript numbers are embedded as `ℚ`.
Calls into the external turf geometry library (geodesic distance,
destination point, line translation, line splitting, geodesic midpoint,
point-in-polygon, polyline length) are kept abstract: the functions that
use them take the geometry operations as explicit arguments (a `Geo`
record, or a polyline-length function `pathLen`), and the theorems
quantify over them.  Counterexamples and witnesses instantiate the
geometry with a concrete, fully computable planar geometry.

Coordinate conventions follow the source: a `Point` is a `(lat, lon)` pair
in app code, reordered to `(lon, lat)` at geometry-library boundaries by
the explicit swaps that the source performs.
-/

namespace ProjectScoping

/-- A coordinate pair of rational numbers.  In app code it is read as
`[lat, lon]`; at turf boundaries as `[lon, lat]` (the source swaps
explicitly, and so does this model). -/
abbrev Point : Type := ℚ × ℚ

/-- One coverage pass: the `LatLon[][]` element type of the source. -/
abbrev Leg : Type := List Point

/-- Models the coordinate reorderings `([lat, lon]) => [lon, lat]` (and the
converse) that the source writes at geometry-library boundaries. -/
def swapPt (p : Point) : Point := (p.2, p.1)

/-! ## Spacing calculator (`src/lib/qgc.ts`, `footprintMeters` and
`spacingFromOverlap`) -/

/-- Camera preset, from `export type Camera` in `src/lib/qgc.ts`.
Millimetre and pixel fields are rationals; `pixelPitch_um` is optional. -/
structure Camera where
  name : String
  sensorWidth_mm : ℚ
  sensorHeight_mm : ℚ
  focalLength_mm : ℚ
  imageWidth_px : ℚ
  imageHeight_px : ℚ
  pixelPitch_um : Option ℚ
deriving DecidableEq

/-- Ground footprint `(groundWidth_m, groundHeight_m)`, translated from
`footprintMeters`: each dimension is
`(heightAGL_m * (sensorDim_mm / 1000)) / (focalLength_mm / 1000)`. -/
def footprintMeters (heightAGL_m : ℚ) (cam : Camera) : ℚ × ℚ :=
  ((heightAGL_m * (cam.sensorWidth_mm / 1000)) / (cam.focalLength_mm / 1000),
   (heightAGL_m * (cam.sensorHeight_mm / 1000)) / (cam.focalLength_mm / 1000))

/-- Result record of `spacingFromOverlap`. -/
structure SpacingResult where
  along_m : ℚ
  across_m : ℚ
  groundWidth_m : ℚ
  groundHeight_m : ℚ
deriving DecidableEq

/-- Translated from `spacingFromOverlap`: along-track spacing (trigger
distance) is `groundHeight * (1 - overlapFrac)`, across-track spacing
(line spacing) is `groundWidth * (1 - sidelapFrac)`. -/
def spacingFromOverlap (heightAGL_m : ℚ) (cam : Camera)
    (overlapFrac sidelapFrac : ℚ) : SpacingResult :=
  let fp := footprintMeters heightAGL_m cam
  ⟨fp.2 * (1 - overlapFrac), fp.1 * (1 - sidelapFrac), fp.1, fp.2⟩

/-- Unit-conversion identity used by the spacing claims: dividing both the
sensor dimension and the focal length by 1000 cancels.  Over `ℚ` this also
holds for a zero focal length, where both sides are zero. -/
lemma mm_div_cancel (h s f : ℚ) :
    (h * (s / 1000)) / (f / 1000) = h * s / f := by
  rcases eq_or_ne f 0 with hf | hf
  · simp [hf]
  · field_simp

/-! ## Leg stitching (`src/App.tsx`, `connectLegs`) -/

/-- Loop body of `connectLegs`, with the mutable `out` array made an
explicit accumulator.  A leg with fewer than 2 points is skipped
(`continue`); the first kept leg is pushed whole; afterwards the next
leg's first point is pushed once as a connector when it differs from the
running path's last point, followed by the rest of the leg. -/
def connectLegsAux : List Point → List Leg → List Point
  | out, [] => out
  | out, leg :: rest =>
    if leg.length < 2 then connectLegsAux out rest
    else if out = [] then connectLegsAux leg rest
    else
      let last := out.getLastD (0, 0)
      let start := leg.headD (0, 0)
      let out2 := if last.1 ≠ start.1 ∨ last.2 ≠ start.2 then out ++ [start] else out
      connectLegsAux (out2 ++ leg.tail) rest

/-- Translated from `connectLegs`: stitch an ordered leg list into one
continuous point sequence. -/
def connectLegs (legs : List Leg) : List Point := connectLegsAux [] legs

lemma connectLegsAux_filter (legs : List Leg) :
    ∀ out, connectLegsAux out legs
      = connectLegsAux out (legs.filter fun l => decide (2 ≤ l.length)) := by
  induction legs with
  | nil => intro out; rfl
  | cons leg rest ih =>
    intro out
    by_cases hlen : leg.length < 2
    · have hk : (decide (2 ≤ leg.length)) = false := by
        simp only [decide_eq_false_iff_not]; omega
      simp only [connectLegsAux, if_pos hlen, List.filter_cons, hk,
        Bool.false_eq_true, if_false]
      exact ih out
    · have hk : (decide (2 ≤ leg.length)) = true := by
        simp only [decide_eq_true_eq]; omega
      simp only [connectLegsAux, if_neg hlen, List.filter_cons, hk, if_true]
      by_cases hout : out = []
      · simp only [if_pos hout]; exact ih leg
      · simp only [if_neg hout]
        exact ih _

/-- Claim C10: the stitched path ignores degenerate legs — `connectLegs`
on any leg list equals `connectLegs` on the sublist of legs having at
least 2 points, so legs with fewer than 2 points contribute no points to
the continuous route. -/
theorem connectLegs_skips_short_legs (legs : List Leg) :
    connectLegs legs = connectLegs (legs.filter fun l => decide (2 ≤ l.length)) :=
  connectLegsAux_filter legs []

/-- Claim C8: the spacing calculator returns along-track spacing
`height * sensorHeight / focalLength * (1 - overlap)` and across-track
spacing `height * sensorWidth / focalLength * (1 - sidelap)`; the
millimetre-to-metre conversions of the source cancel exactly. -/
theorem spacingFromOverlap_formula (h : ℚ) (cam : Camera) (ov sl : ℚ) :
    (spacingFromOverlap h cam ov sl).along_m
        = h * cam.sensorHeight_mm / cam.focalLength_mm * (1 - ov)
      ∧ (spacingFromOverlap h cam ov sl).across_m
        = h * cam.sensorWidth_mm / cam.focalLength_mm * (1 - sl) := by
  constructor
  · show (footprintMeters h cam).2 * (1 - ov) = _
    rw [show (footprintMeters h cam).2
          = (h * (cam.sensorHeight_mm / 1000)) / (cam.focalLength_mm / 1000) from rfl,
        mm_div_cancel]
  · show (footprintMeters h cam).1 * (1 - sl) = _
    rw [show (footprintMeters h cam).1
          = (h * (cam.sensorWidth_mm / 1000)) / (cam.focalLength_mm / 1000) from rfl,
        mm_div_cancel]

/-! ## Mission serializer (`src/lib/qgc.ts`, `wp`, `camTrigDist`,
`makePlan`) -/

/-- MAVLink command constant `MAV_CMD.NAV_WAYPOINT`. -/
def MAV_CMD_NAV_WAYPOINT : ℕ := 16

/-- MAVLink command constant `MAV_CMD.DO_SET_CAM_TRIGG_DIST`. -/
def MAV_CMD_DO_SET_CAM_TRIGG_DIST : ℕ := 206

/-- Frame constant `MAV_FRAME.GLOBAL`. -/
def MAV_FRAME_GLOBAL : ℕ := 0

/-- Frame constant `MAV_FRAME.GLOBAL_RELATIVE_ALT`. -/
def MAV_FRAME_GLOBAL_RELATIVE_ALT : ℕ := 3

/-- One mission item, from `export type MissionItem`.  `params` models the
7-element params array; `itemType` models the `type: 'SimpleItem'` field;
`aMslAlt` models the optional `AMslAlt` field (absent on trigger items). -/
structure MissionItem where
  aMslAlt : Option Bool
  autoContinue : Bool
  command : ℕ
  doJumpId : ℕ
  frame : ℕ
  params : List ℚ
  itemType : String
deriving DecidableEq

/-- The `mission` object of a plan. -/
structure Mission where
  version : ℕ
  cruiseSpeed : Option ℚ
  hoverSpeed : Option ℚ
  items : List MissionItem
  plannedHomePosition : ℚ × ℚ × ℚ
  firmwareType : ℚ
  vehicleType : ℚ
deriving DecidableEq

/-- Top-level `.plan` object (geoFence and rallyPoints carry no data the
claims mention; their version fields are kept). -/
structure QgcPlan where
  fileType : String
  version : ℕ
  groundStation : String
  geoFenceVersion : ℕ
  rallyPointsVersion : ℕ
  mission : Mission
deriving DecidableEq

/-- Translated from `wp`: a waypoint item.  The module-level mutable
`idCounter` with `nextId()` is made an explicit counter argument; the
returned counter is the incremented one. -/
def wp (lat lon relAlt_m : ℚ) (idCounter : ℕ) : MissionItem × ℕ :=
  (⟨some false, true, MAV_CMD_NAV_WAYPOINT, idCounter,
    MAV_FRAME_GLOBAL_RELATIVE_ALT,
    [0, 0, 0, 0, lat, lon, relAlt_m], "SimpleItem"⟩, idCounter + 1)

/-- Translated from `camTrigDist`: a camera-trigger-distance item (no
`AMslAlt` field in the source object literal). -/
def camTrigDist (trigger_m : ℚ) (idCounter : ℕ) : MissionItem × ℕ :=
  (⟨none, true, MAV_CMD_DO_SET_CAM_TRIGG_DIST, idCounter, MAV_FRAME_GLOBAL,
    [trigger_m, 0, 0, 0, 0, 0, 0], "SimpleItem"⟩, idCounter + 1)

/-- Options record of `makePlan` (`export type MakePlanOptions`). -/
structure MakePlanOptions where
  homeLat : ℚ
  homeLon : ℚ
  relAlt_m : ℚ
  groundspeed_mps : Option ℚ
  hover_mps : Option ℚ
  trigger_m : ℚ
  gridLines : List (List Point)
  firmwareType : Option ℚ
  vehicleType : Option ℚ
deriving DecidableEq

/-- Inner loop of `makePlan`: `for (const [lat, lon] of line)
items.push(wp(lat, lon, opts.relAlt_m))`, with the id counter threaded. -/
def wpList (relAlt_m : ℚ) : List Point → ℕ → List MissionItem × ℕ
  | [], idc => ([], idc)
  | pt :: rest, idc =>
    let r := wp pt.1 pt.2 relAlt_m idc
    let rs := wpList relAlt_m rest r.2
    (r.1 :: rs.1, rs.2)

/-- Outer loop of `makePlan`: `for (const line of opts.gridLines)`. -/
def wpLines (relAlt_m : ℚ) : List (List Point) → ℕ → List MissionItem × ℕ
  | [], idc => ([], idc)
  | line :: rest, idc =>
    let r := wpList relAlt_m line idc
    let rs := wpLines relAlt_m rest r.2
    (r.1 ++ rs.1, rs.2)

/-- Translated from `makePlan`.  The source resets the module-level
counter with `idCounter = 1` as its first statement, so the counter value
entering the item-building code is always 1; the model passes 1
explicitly. -/
def makePlan (opts : MakePlanOptions) : QgcPlan :=
  let r1 := camTrigDist opts.trigger_m 1
  let r2 := wpLines opts.relAlt_m opts.gridLines r1.2
  { fileType := "Plan"
    version := 1
    groundStation := "QGroundControl"
    geoFenceVersion := 2
    rallyPointsVersion := 2
    mission :=
      { version := 2
        cruiseSpeed := opts.groundspeed_mps
        hoverSpeed := opts.hover_mps
        items := r1.1 :: r2.1
        plannedHomePosition := (opts.homeLat, opts.homeLon, 0)
        firmwareType := opts.firmwareType.getD 12
        vehicleType := opts.vehicleType.getD 3 } }

/-- The waypoint item generated for point `pr.2` with identifier `pr.1`. -/
def wpItemAt (relAlt_m : ℚ) (pr : ℕ × Point) : MissionItem :=
  ⟨some false, true, 16, pr.1, 3,
   [0, 0, 0, 0, pr.2.1, pr.2.2, relAlt_m], "SimpleItem"⟩

lemma wpList_eq (relAlt_m : ℚ) (pts : List Point) :
    ∀ idc, wpList relAlt_m pts idc
      = ((List.enumFrom idc pts).map (wpItemAt relAlt_m), idc + pts.length) := by
  induction pts with
  | nil => intro idc; simp [wpList]
  | cons pt rest ih =>
    intro idc
    simp only [wpList, ih, List.enumFrom, List.map_cons, List.length_cons]
    refine Prod.ext ?_ ?_
    · simp [wp, wpItemAt, MAV_CMD_NAV_WAYPOINT, MAV_FRAME_GLOBAL_RELATIVE_ALT]
    · show idc + 1 + rest.length = idc + (rest.length + 1)
      omega

lemma enumFrom_append_eq (a b : List Point) :
    ∀ n, List.enumFrom n (a ++ b)
      = List.enumFrom n a ++ List.enumFrom (n + a.length) b := by
  induction a with
  | nil => intro n; simp [List.enumFrom]
  | cons x xs ih =>
    intro n
    calc List.enumFrom n ((x :: xs) ++ b)
        = (n, x) :: List.enumFrom (n + 1) (xs ++ b) := rfl
      _ = (n, x) :: (List.enumFrom (n + 1) xs ++ List.enumFrom (n + 1 + xs.length) b) := by
            rw [ih (n + 1)]
      _ = List.enumFrom n (x :: xs) ++ List.enumFrom (n + (x :: xs).length) b := by
            rw [show n + (x :: xs).length = n + 1 + xs.length by
              simp only [List.length_cons]; omega]
            rfl

lemma wpLines_eq (relAlt_m : ℚ) (lines : List (List Point)) :
    ∀ idc, wpLines relAlt_m lines idc
      = ((List.enumFrom idc lines.flatten).map (wpItemAt relAlt_m),
         idc + lines.flatten.length) := by
  induction lines with
  | nil => intro idc; simp [wpLines]
  | cons line rest ih =>
    intro idc
    simp only [wpLines, wpList_eq, ih, List.flatten_cons, List.length_append,
      enumFrom_append_eq, List.map_append]
    refine Prod.ext rfl ?_
    show idc + line.length + rest.flatten.length = idc + _
    omega

/-- Item list of any plan, as a single characterizing equation. -/
lemma makePlan_items (opts : MakePlanOptions) :
    (makePlan opts).mission.items
      = (⟨none, true, 206, 1, 0, [opts.trigger_m, 0, 0, 0, 0, 0, 0],
          "SimpleItem"⟩ : MissionItem)
        :: (List.enumFrom 2 opts.gridLines.flatten).map (wpItemAt opts.relAlt_m) := by
  show (camTrigDist opts.trigger_m 1).1
        :: (wpLines opts.relAlt_m opts.gridLines (camTrigDist opts.trigger_m 1).2).1 = _
  rw [wpLines_eq]
  rfl

/-- Claim C2: `makePlan` produces exactly one camera-trigger-distance item
(command 206, params `[trigger, 0, 0, 0, 0, 0, 0]`) followed by one
waypoint item per point across all legs in leg order (command 16, frame 3
= global-relative-altitude, params `[0, 0, 0, 0, lat, lon, relAlt]`); the
item count is 1 plus the total point count, and the planned home position
is `(homeLat, homeLon, 0)`.  Every item in the right-hand side has
`autoContinue = true`. -/
theorem makePlan_mission_contract (opts : MakePlanOptions) :
    (makePlan opts).mission.items
        = (⟨none, true, 206, 1, 0, [opts.trigger_m, 0, 0, 0, 0, 0, 0],
            "SimpleItem"⟩ : MissionItem)
          :: (List.enumFrom 2 opts.gridLines.flatten).map (fun pr =>
               (⟨some false, true, 16, pr.1, 3,
                 [0, 0, 0, 0, pr.2.1, pr.2.2, opts.relAlt_m],
                 "SimpleItem"⟩ : MissionItem))
      ∧ (makePlan opts).mission.items.length
        = 1 + (opts.gridLines.map List.length).sum
      ∧ (makePlan opts).mission.plannedHomePosition
        = (opts.homeLat, opts.homeLon, 0) := by
  refine ⟨makePlan_items opts, ?_, rfl⟩
  rw [makePlan_items opts]
  simp [List.enumFrom_length, List.length_flatten]
  omega

lemma enumFrom_map_fst_eq (pts : List Point) :
    ∀ n, (List.enumFrom n pts).map Prod.fst = List.range' n pts.length := by
  induction pts with
  | nil => intro n; rfl
  | cons pt rest ih =>
    intro n
    simp only [List.enumFrom, List.map_cons, ih (n + 1), List.length_cons]
    rfl

/-- Claim C5: within one `makePlan` call the `doJumpId` values are exactly
`1, 2, …, n` in item order (the item at position `k` carries identifier
`k + 1`).  The counter is reset to 1 at the start of each call
(`idCounter = 1`), so the identifier list is a function of the input
alone — two calls with equal inputs assign identical identifiers. -/
theorem makePlan_doJumpId_consecutive (opts : MakePlanOptions) :
    (makePlan opts).mission.items.map MissionItem.doJumpId
      = List.range' 1 (makePlan opts).mission.items.length := by
  rw [makePlan_items opts]
  simp only [List.map_cons, List.map_map, List.length_cons, List.enumFrom_length]
  have hcomp : (MissionItem.doJumpId ∘ wpItemAt opts.relAlt_m) = Prod.fst := by
    funext pr; rfl
  rw [hcomp, enumFrom_map_fst_eq]
  simp only [List.length_map, List.enumFrom_length]
  rfl

/-! ## Battery segmenter (`src/App.tsx`, `segmentByCap`)

The turf polyline length `turfLength(lineString(ll))` (kilometres over
`[lon, lat]` coordinates) is abstracted as an explicit argument
`pathLen : List Point → ℚ`; the `* 1000` kilometre-to-metre conversions of
the source are kept in the model. -/

/-- One emitted segment, from `type Segment` in `src/App.tsx`. -/
structure Segment where
  legs : List Leg
  pathLatLon : List Point
  distance_m : ℚ
  time_s : ℚ
deriving DecidableEq

/-- Mutable loop state of `segmentByCap`: emitted segments, the running
segment's legs, and the accumulated time and distance. -/
structure SegState where
  segs : List Segment
  current : List Leg
  timeAccum : ℚ
  distAccum : ℚ
deriving DecidableEq

/-- Translated from the local `legTimeAndDist` helper: a leg with fewer
than 2 points contributes `(0, 0)`; otherwise its coordinates are swapped
to `[lon, lat]`, its length (kilometres) is converted to metres, and the
time is `d / speed` when the speed is positive, else 0. -/
def legTimeAndDist (pathLen : List Point → ℚ) (speed_mps : ℚ) (leg : Leg) : ℚ × ℚ :=
  if leg.length < 2 then (0, 0)
  else
    let ll := leg.map swapPt
    let d := pathLen ll * 1000
    let t := if 0 < speed_mps then d / speed_mps else 0
    (t, d)

/-- Closing a segment, shared by the in-loop flush and the final flush:
the segment records the running legs, their stitched path, the stitched
path's length in metres, and the accumulated time. -/
def mkSegment (pathLen : List Point → ℚ) (current : List Leg) (timeAccum : ℚ) : Segment :=
  let pathLatLon := connectLegs current
  let ll := pathLatLon.map swapPt
  let segDist := pathLen ll * 1000
  ⟨current, pathLatLon, segDist, timeAccum⟩

/-- Loop body of `segmentByCap`: if the running segment is non-empty and
adding the candidate leg (plus the fixed per-leg turn overhead) would
exceed the budget, the running segment is closed first; the candidate leg
is then always added to the (possibly just-opened) running segment. -/
def segStep (pathLen : List Point → ℚ) (speed_mps turnTime_s budget_s : ℚ)
    (st : SegState) (leg : Leg) : SegState :=
  let td := legTimeAndDist pathLen speed_mps leg
  let st1 :=
    if st.current ≠ [] ∧ budget_s < st.timeAccum + td.1 + turnTime_s then
      ⟨st.segs ++ [mkSegment pathLen st.current st.timeAccum], [], 0, 0⟩
    else st
  ⟨st1.segs, st1.current ++ [leg], st1.timeAccum + td.1 + turnTime_s,
   st1.distAccum + td.2⟩

/-- Final flush of `segmentByCap`: `if (current.length) { segs.push(...) }`. -/
def segFinish (pathLen : List Point → ℚ) (st : SegState) : List Segment :=
  if st.current = [] then st.segs
  else st.segs ++ [mkSegment pathLen st.current st.timeAccum]

/-- Translated from `segmentByCap`: effective budget
`max(60, cap_min * 60 - 60)` seconds, one greedy pass over the legs, and a
final flush of the running segment when it is non-empty. -/
def segmentByCap (pathLen : List Point → ℚ) (speed_mps turnTime_s cap_min : ℚ)
    (legs : List Leg) : List Segment :=
  let budget_s := max 60 (cap_min * 60 - 60)
  segFinish pathLen
    (legs.foldl (segStep pathLen speed_mps turnTime_s budget_s) ⟨[], [], 0, 0⟩)

/-- Legs carried by a state: emitted segments' legs followed by the
running segment's legs. -/
def stateLegs (st : SegState) : List Leg :=
  (st.segs.map Segment.legs).flatten ++ st.current

lemma stateLegs_segFinish (pathLen : List Point → ℚ) (st : SegState) :
    ((segFinish pathLen st).map Segment.legs).flatten = stateLegs st := by
  by_cases h : st.current = []
  · simp [segFinish, stateLegs, h]
  · simp [segFinish, stateLegs, h, mkSegment]

lemma stateLegs_segStep (pathLen : List Point → ℚ)
    (speed_mps turnTime_s budget_s : ℚ) (st : SegState) (leg : Leg) :
    stateLegs (segStep pathLen speed_mps turnTime_s budget_s st leg)
      = stateLegs st ++ [leg] := by
  by_cases h : st.current ≠ []
      ∧ budget_s < st.timeAccum + (legTimeAndDist pathLen speed_mps leg).1 + turnTime_s
  · simp [segStep, h, stateLegs, mkSegment]
  · simp [segStep, h, stateLegs]

lemma stateLegs_segFold (pathLen : List Point → ℚ)
    (speed_mps turnTime_s budget_s : ℚ) (legs : List Leg) :
    ∀ st : SegState,
    stateLegs (legs.foldl (segStep pathLen speed_mps turnTime_s budget_s) st)
      = stateLegs st ++ legs := by
  induction legs with
  | nil => intro st; simp
  | cons leg rest ih =>
    intro st
    simp only [List.foldl_cons, ih, stateLegs_segStep]
    simp

/-- Claim C1: segmentation is a partition — concatenating the legs of the
segments returned by `segmentByCap`, in segment order, yields exactly the
input leg list (same legs, same order, none dropped, duplicated, or
reordered), for every polyline-length function, speed, turn time, and
battery cap. -/
theorem segmentByCap_partition (pathLen : List Point → ℚ)
    (speed_mps turnTime_s cap_min : ℚ) (legs : List Leg) :
    ((segmentByCap pathLen speed_mps turnTime_s cap_min legs).map
        Segment.legs).flatten = legs := by
  show ((segFinish pathLen _).map Segment.legs).flatten = legs
  rw [stateLegs_segFinish, stateLegs_segFold]
  simp [stateLegs]

/-- Budget invariant threaded through the fold: every emitted segment is
within budget or a singleton, and the running segment (when non-empty)
likewise. -/
def BudgetInv (budget_s : ℚ) (st : SegState) : Prop :=
  (∀ s ∈ st.segs, s.time_s ≤ budget_s ∨ s.legs.length = 1)
    ∧ (st.current ≠ [] → (st.timeAccum ≤ budget_s ∨ st.current.length = 1))

lemma budgetInv_segStep (pathLen : List Point → ℚ)
    (speed_mps turnTime_s budget_s : ℚ) (st : SegState) (leg : Leg)
    (h : BudgetInv budget_s st) :
    BudgetInv budget_s (segStep pathLen speed_mps turnTime_s budget_s st leg) := by
  obtain ⟨hsegs, hcur⟩ := h
  by_cases hc : st.current ≠ []
      ∧ budget_s < st.timeAccum + (legTimeAndDist pathLen speed_mps leg).1 + turnTime_s
  · refine ⟨?_, ?_⟩
    · intro s hs
      simp only [segStep, if_pos hc, List.mem_append, List.mem_singleton] at hs
      rcases hs with hs | hs
      · exact hsegs s hs
      · subst hs
        simpa [mkSegment] using hcur hc.1
    · intro _
      simp [segStep, if_pos hc]
  · refine ⟨?_, ?_⟩
    · intro s hs
      simp only [segStep, if_neg hc] at hs
      exact hsegs s hs
    · intro _
      simp only [segStep, if_neg hc]
      push_neg at hc
      by_cases hcur0 : st.current = []
      · right; simp [hcur0]
      · left
        have := hc hcur0
        linarith

lemma budgetInv_segFold (pathLen : List Point → ℚ)
    (speed_mps turnTime_s budget_s : ℚ) (legs : List Leg) :
    ∀ st : SegState, BudgetInv budget_s st →
    BudgetInv budget_s (legs.foldl (segStep pathLen speed_mps turnTime_s budget_s) st) := by
  induction legs with
  | nil => intro st h; exact h
  | cons leg rest ih =>
    intro st h
    exact ih _ (budgetInv_segStep pathLen speed_mps turnTime_s budget_s st leg h)

/-- Claim C4: every segment returned by `segmentByCap` has accumulated
time at most the effective budget `max(60, cap_min * 60 - 60)` seconds, or
else contains exactly one leg (an over-budget single leg is kept as its
own segment, never rejected or split). -/
theorem segmentByCap_budget (pathLen : List Point → ℚ)
    (speed_mps turnTime_s cap_min : ℚ) (legs : List Leg) (s : Segment)
    (hs : s ∈ segmentByCap pathLen speed_mps turnTime_s cap_min legs) :
    s.time_s ≤ max 60 (cap_min * 60 - 60) ∨ s.legs.length = 1 := by
  set budget_s := max 60 (cap_min * 60 - 60) with hb
  have hinv : BudgetInv budget_s
      (legs.foldl (segStep pathLen speed_mps turnTime_s budget_s) ⟨[], [], 0, 0⟩) :=
    budgetInv_segFold pathLen speed_mps turnTime_s budget_s legs _
      ⟨by intro s hs; simp at hs, by intro h; simp at h⟩
  obtain ⟨hsegs, hcur⟩ := hinv
  have hs2 : s ∈ segFinish pathLen
      (legs.foldl (segStep pathLen speed_mps turnTime_s budget_s) ⟨[], [], 0, 0⟩) := hs
  set st := legs.foldl (segStep pathLen speed_mps turnTime_s budget_s) ⟨[], [], 0, 0⟩
  by_cases hc : st.current = []
  · simp only [segFinish, if_pos hc] at hs2
    exact hsegs s hs2
  · simp only [segFinish, if_neg hc, List.mem_append, List.mem_singleton] at hs2
    rcases hs2 with h2 | h2
    · exact hsegs s h2
    · subst h2
      simpa [mkSegment] using hcur hc

/-- Non-emptiness invariant: every emitted segment holds at least one leg. -/
def NonemptyInv (st : SegState) : Prop := ∀ s ∈ st.segs, s.legs ≠ []

lemma nonemptyInv_segStep (pathLen : List Point → ℚ)
    (speed_mps turnTime_s budget_s : ℚ) (st : SegState) (leg : Leg)
    (h : NonemptyInv st) :
    NonemptyInv (segStep pathLen speed_mps turnTime_s budget_s st leg) := by
  by_cases hc : st.current ≠ []
      ∧ budget_s < st.timeAccum + (legTimeAndDist pathLen speed_mps leg).1 + turnTime_s
  · intro s hs
    simp only [segStep, if_pos hc, List.mem_append, List.mem_singleton] at hs
    rcases hs with hs | hs
    · exact h s hs
    · subst hs
      simpa [mkSegment] using hc.1
  · intro s hs
    simp only [segStep, if_neg hc] at hs
    exact h s hs

lemma nonemptyInv_segFold (pathLen : List Point → ℚ)
    (speed_mps turnTime_s budget_s : ℚ) (legs : List Leg) :
    ∀ st : SegState, NonemptyInv st →
    NonemptyInv (legs.foldl (segStep pathLen speed_mps turnTime_s budget_s) st) := by
  induction legs with
  | nil => intro st h; exact h
  | cons leg rest ih =>
    intro st h
    exact ih _ (nonemptyInv_segStep pathLen speed_mps turnTime_s budget_s st leg h)

/-- Claim C9: the segmenter never emits an empty segment — every returned
segment contains at least one leg, and the empty leg list yields the empty
segment list (not a single empty segment). -/
theorem segmentByCap_no_empty_segment (pathLen : List Point → ℚ)
    (speed_mps turnTime_s cap_min : ℚ) :
    segmentByCap pathLen speed_mps turnTime_s cap_min [] = []
      ∧ ∀ (legs : List Leg) (s : Segment),
          s ∈ segmentByCap pathLen speed_mps turnTime_s cap_min legs → s.legs ≠ [] := by
  refine ⟨rfl, ?_⟩
  intro legs s hs
  set budget_s := max 60 (cap_min * 60 - 60)
  have hinv : NonemptyInv
      (legs.foldl (segStep pathLen speed_mps turnTime_s budget_s) ⟨[], [], 0, 0⟩) :=
    nonemptyInv_segFold pathLen speed_mps turnTime_s budget_s legs _
      (by intro s hs; simp at hs)
  have hs2 : s ∈ segFinish pathLen
      (legs.foldl (segStep pathLen speed_mps turnTime_s budget_s) ⟨[], [], 0, 0⟩) := hs
  set st := legs.foldl (segStep pathLen speed_mps turnTime_s budget_s) ⟨[], [], 0, 0⟩
  by_cases hc : st.current = []
  · simp only [segFinish, if_pos hc] at hs2
    exact hinv s hs2
  · simp only [segFinish, if_neg hc, List.mem_append, List.mem_singleton] at hs2
    rcases hs2 with h2 | h2
    · exact hinv s h2
    · subst h2
      simpa [mkSegment] using hc

/-! ## Path orientation (`src/App.tsx`, the `orientedPathLonLat` memo)

The geodesic `turfDistance` (kilometres) is abstracted as an explicit
argument `dist : Point → Point → ℚ`. -/

/-- Translated from the `orientedPathLonLat` memo: a stitched path with
fewer than 2 points yields `[]`; otherwise the path is swapped to
`[lon, lat]`, the distances from home (also swapped) to the first and last
points are compared, and the path is reversed exactly when the start is
strictly farther than the end (`dStart <= dEnd` keeps the original
direction). -/
def orientedPathLonLat (dist : Point → Point → ℚ) (home : Point)
    (rawPathLatLon : List Point) : List Point :=
  if rawPathLatLon.length < 2 then []
  else
    let pathLL := rawPathLatLon.map swapPt
    let homeLL : Point := (home.2, home.1)
    let dStart := dist homeLL (pathLL.headD (0, 0))
    let dEnd := dist homeLL (pathLL.getLastD (0, 0))
    if dStart ≤ dEnd then pathLL else pathLL.reverse

lemma headD_reverse (l : List Point) (d : Point) :
    l.reverse.headD d = l.getLastD d := by
  cases h : l.reverse with
  | nil =>
    have : l = [] := by simpa using congrArg List.reverse h
    simp [this]
  | cons x xs =>
    have h2 : l = (x :: xs).reverse := by
      have := congrArg List.reverse h
      simpa using this
    subst h2
    simp [List.getLastD_concat]

/-- Claim C6: for a stitched path with at least 2 points, the oriented
path is the (coordinate-swapped) stitched path reversed exactly when home
is strictly closer to the path's last point than to its first point, and
is the path unchanged otherwise (ties keep the original direction); hence
the oriented path starts at an endpoint whose distance from home is the
minimum of the two endpoint distances. -/
theorem orientedPath_starts_nearer_home (dist : Point → Point → ℚ)
    (home : Point) (raw : List Point) (h : 2 ≤ raw.length) :
    orientedPathLonLat dist home raw
        = (if dist (home.2, home.1) ((raw.map swapPt).getLastD (0, 0))
              < dist (home.2, home.1) ((raw.map swapPt).headD (0, 0))
           then (raw.map swapPt).reverse
           else raw.map swapPt)
      ∧ dist (home.2, home.1) ((orientedPathLonLat dist home raw).headD (0, 0))
        = min (dist (home.2, home.1) ((raw.map swapPt).headD (0, 0)))
            (dist (home.2, home.1) ((raw.map swapPt).getLastD (0, 0))) := by
  have hlt : ¬ raw.length < 2 := by omega
  set pathLL := raw.map swapPt with hPath
  set homeLL : Point := (home.2, home.1)
  set dStart := dist homeLL (pathLL.headD (0, 0)) with hdS
  set dEnd := dist homeLL (pathLL.getLastD (0, 0)) with hdE
  have hor : orientedPathLonLat dist home raw
      = if dStart ≤ dEnd then pathLL else pathLL.reverse := by
    simp only [orientedPathLonLat, if_neg hlt]
  by_cases hle : dStart ≤ dEnd
  · have hnot : ¬ dEnd < dStart := not_lt.mpr hle
    refine ⟨?_, ?_⟩
    · rw [hor, if_pos hle, if_neg hnot]
    · rw [hor, if_pos hle, ← hdS, min_eq_left hle]
  · have hltd : dEnd < dStart := not_le.mp hle
    refine ⟨?_, ?_⟩
    · rw [hor, if_neg hle, if_pos hltd]
    · rw [hor, if_neg hle, headD_reverse, ← hdE,
        min_eq_right (le_of_lt hltd)]

/-! ## Grid builder (`src/App.tsx`, `buildGridInsidePolygon`)

The turf calls (`bbox` excepted, which is plain min/max and is modelled
directly) are gathered in a `Geo` record of abstract geometry operations.
JavaScript float arithmetic matters in exactly one place: `Math.ceil
(cover_m / (2 * spacing_m))` with a zero divisor produces `Infinity`
(positive numerator), `-Infinity` (negative numerator) or `NaN` (zero
numerator); the subsequent `for (let i = -halfSteps; i <= halfSteps; i++)`
never terminates for `Infinity` and runs zero iterations for `-Infinity`
and `NaN`.  `jsHalfSteps` models these four outcomes, and
`buildGridInsidePolygon` returns `none` for the non-terminating one. -/

/-- Abstract geometry-library operations used by the grid builder.
`dist` and `destination` work in kilometres; `lineSplit` returns `none`
when the library call throws, and `some` of the split features otherwise;
`pointInPolygon` and `midpoint` model `booleanPointInPolygon` and turf
`midpoint`.  All coordinates here are `[lon, lat]`. -/
structure Geo where
  dist : Point → Point → ℚ
  destination : Point → ℚ → ℚ → Point
  translate : List Point → ℚ → ℚ → List Point
  lineSplit : List Point → List Point → Option (List (List Point))
  midpoint : Point → Point → Point
  pointInPolygon : Point → List Point → Bool

/-- Bounding box of a ring, from turf `bbox`: min/max over all
coordinates.  The degenerate empty ring is mapped to a zero box (turf
would return infinite bounds; no claim exercises an empty ring). -/
structure BBox where
  minX : ℚ
  minY : ℚ
  maxX : ℚ
  maxY : ℚ

/-- Fold computing the bounding box of the AOI's outer ring. -/
def bboxQ : List Point → BBox
  | [] => ⟨0, 0, 0, 0⟩
  | p :: ps =>
    ps.foldl (fun bb q => ⟨min bb.minX q.1, min bb.minY q.2,
                           max bb.maxX q.1, max bb.maxY q.2⟩)
      ⟨p.1, p.2, p.1, p.2⟩

/-- Truncation toward zero, as JavaScript's number-to-integer steps use. -/
def jsTrunc (q : ℚ) : ℤ := if q < 0 then ⌈q⌉ else ⌊q⌋

/-- JavaScript remainder `a % b` (sign of the dividend) for a non-zero
divisor; the grid builder only applies it with divisor 360. -/
def jsMod (a b : ℚ) : ℚ := a - b * jsTrunc (a / b)

/-- Outcome of `Math.ceil(cover_m / (2 * spacing_m))` under JavaScript
float semantics, for rational operands. -/
inductive JsSteps where
  | fin (n : ℤ)
  | posInf
  | negInf
  | nan
deriving DecidableEq

/-- The `halfSteps` value: finite ceiling when the spacing is non-zero,
and the three non-finite IEEE outcomes of a zero divisor otherwise. -/
def jsHalfSteps (cover_m spacing_m : ℚ) : JsSteps :=
  if spacing_m = 0 then
    if 0 < cover_m then JsSteps.posInf
    else if cover_m < 0 then JsSteps.negInf
    else JsSteps.nan
  else JsSteps.fin ⌈cover_m / (2 * spacing_m)⌉

/-- The integer range `a, a+1, …, b` of the loop counter (empty when
`b < a`). -/
def intRange (a b : ℤ) : List ℤ :=
  (List.range (b + 1 - a).toNat).map fun k => a + (k : ℤ)

/-- Preamble of `buildGridInsidePolygon`: bounding box, centre, baseline
through the centre along the heading (length
`max(500, 2 * diagonal)` metres, built from two `destination` calls), the
orthogonal bearing, and the coverage extent. -/
structure GridPrep where
  baseLine : List Point
  ortho : ℚ
  cover_m : ℚ

/-- Translated from the statements of `buildGridInsidePolygon` before the
loop. -/
def gridPrep (g : Geo) (poly : List Point) (headingDeg spacing_m : ℚ) : GridPrep :=
  let bb := bboxQ poly
  let centerLon := (bb.minX + bb.maxX) / 2
  let centerLat := (bb.minY + bb.maxY) / 2
  let diag_m := g.dist (bb.minX, bb.minY) (bb.maxX, bb.maxY) * 1000
  let lineLen_m := max 500 (diag_m * 2)
  let width_m := g.dist (bb.minX, centerLat) (bb.maxX, centerLat) * 1000
  let height_m := g.dist (centerLon, bb.minY) (centerLon, bb.maxY) * 1000
  let cover_m := max width_m height_m + spacing_m * 4
  let ortho := jsMod (headingDeg + 90) 360
  let p1 := g.destination (centerLon, centerLat) (lineLen_m / 2000) headingDeg
  let p2 := g.destination (centerLon, centerLat) (lineLen_m / 2000)
      (jsMod (headingDeg + 180) 360)
  ⟨[p2, p1], ortho, cover_m⟩

/-- Pieces kept from one shifted candidate line: the `lineSplit` call with
its catch-fallback and empty-result fallback (both keep the whole shifted
line), then the inner loop's two `continue` guards as a filter — a piece
is kept when it has at least 2 coordinates and the midpoint of its
endpoints tests inside the polygon. -/
def keptOfLine (g : Geo) (poly : List Point) (shifted : List Point) :
    List (List Point) :=
  let pieces :=
    match g.lineSplit shifted poly with
    | none => [shifted]
    | some fs => if fs = [] then [shifted] else fs
  pieces.filter fun coords =>
    decide (2 ≤ coords.length)
      && g.pointInPolygon (g.midpoint (coords.headD (0, 0)) (coords.getLastD (0, 0))) poly

/-- The push site of the loop: each kept piece is swapped to `[lat, lon]`
and appended, reversed when the number of legs already pushed is odd
(`legs.length % 2 === 0 ? path : [...path].reverse()`). -/
def pushPieces (kept : List (List Point)) (legs : List Leg) : List Leg :=
  kept.foldl
    (fun ls coords =>
      let path := coords.map swapPt
      ls ++ [if ls.length % 2 = 0 then path else path.reverse])
    legs

/-- The loop of `buildGridInsidePolygon` for a finite loop bound `n`:
for each `i` from `-n` to `n`, shift the baseline by `i * spacing / 1000`
kilometres along the orthogonal bearing and push the kept pieces. -/
def gridRun (g : Geo) (poly : List Point) (headingDeg spacing_m : ℚ)
    (n : ℤ) : List Leg :=
  (intRange (-n) n).foldl
    (fun (legs : List Leg) (i : ℤ) =>
      pushPieces
        (keptOfLine g poly
          (g.translate (gridPrep g poly headingDeg spacing_m).baseLine
            ((i : ℚ) * spacing_m / 1000)
            (gridPrep g poly headingDeg spacing_m).ortho))
        legs)
    []

/-- Translated from `buildGridInsidePolygon`.  The result is `none` when
the loop bound is `Infinity` (the JavaScript loop never terminates), and
`some legs` otherwise. -/
def buildGridInsidePolygon (g : Geo) (poly : List Point)
    (headingDeg spacing_m : ℚ) : Option (List Leg) :=
  match jsHalfSteps (gridPrep g poly headingDeg spacing_m).cover_m spacing_m with
  | JsSteps.posInf => none
  | JsSteps.negInf => some []
  | JsSteps.nan => some []
  | JsSteps.fin n => some (gridRun g poly headingDeg spacing_m n)

/-- Kept pieces of the loop for a finite loop bound, in encounter order,
in the raw `[lon, lat]` orientation they have before the zig-zag push. -/
def keptRun (g : Geo) (poly : List Point) (headingDeg spacing_m : ℚ)
    (n : ℤ) : List (List Point) :=
  (intRange (-n) n).flatMap fun (i : ℤ) =>
    keptOfLine g poly
      (g.translate (gridPrep g poly headingDeg spacing_m).baseLine
        ((i : ℚ) * spacing_m / 1000)
        (gridPrep g poly headingDeg spacing_m).ortho)

/-- All kept pieces of one grid-builder run. -/
def keptPieces (g : Geo) (poly : List Point) (headingDeg spacing_m : ℚ) :
    List (List Point) :=
  match jsHalfSteps (gridPrep g poly headingDeg spacing_m).cover_m spacing_m with
  | JsSteps.fin n => keptRun g poly headingDeg spacing_m n
  | _ => []

/-- Zig-zag from position `k`: pieces at even positions are kept forward
(swapped to `[lat, lon]`), pieces at odd positions are reversed. -/
def zigzagFrom : ℕ → List (List Point) → List Leg
  | _, [] => []
  | k, p :: ps =>
    (if k % 2 = 0 then p.map swapPt else (p.map swapPt).reverse) :: zigzagFrom (k + 1) ps

lemma zigzagFrom_length (ps : List (List Point)) :
    ∀ k, (zigzagFrom k ps).length = ps.length := by
  induction ps with
  | nil => intro k; rfl
  | cons p rest ih => intro k; simp [zigzagFrom, ih]

lemma zigzagFrom_append (a : List (List Point)) :
    ∀ (k : ℕ) (b : List (List Point)),
    zigzagFrom k (a ++ b) = zigzagFrom k a ++ zigzagFrom (k + a.length) b := by
  induction a with
  | nil => intro k b; simp [zigzagFrom]
  | cons p ps ih =>
    intro k b
    calc zigzagFrom k ((p :: ps) ++ b)
        = (if k % 2 = 0 then p.map swapPt else (p.map swapPt).reverse)
            :: zigzagFrom (k + 1) (ps ++ b) := rfl
      _ = (if k % 2 = 0 then p.map swapPt else (p.map swapPt).reverse)
            :: (zigzagFrom (k + 1) ps ++ zigzagFrom (k + 1 + ps.length) b) := by
            rw [ih (k + 1) b]
      _ = zigzagFrom k (p :: ps) ++ zigzagFrom (k + (p :: ps).length) b := by
            rw [show k + (p :: ps).length = k + 1 + ps.length by
              simp only [List.length_cons]; omega]
            rfl

lemma pushPieces_eq (kept : List (List Point)) :
    ∀ legs : List Leg,
    pushPieces kept legs = legs ++ zigzagFrom legs.length kept := by
  induction kept with
  | nil => intro legs; simp [pushPieces, zigzagFrom]
  | cons coords rest ih =>
    intro legs
    show pushPieces rest
        (legs ++ [if legs.length % 2 = 0 then coords.map swapPt
                  else (coords.map swapPt).reverse])
      = legs ++ zigzagFrom legs.length (coords :: rest)
    rw [ih]
    simp [zigzagFrom, List.length_append]

lemma gridFold_eq (g : Geo) (poly base : List Point)
    (ortho spacing_m : ℚ) (is : List ℤ) :
    ∀ legs : List Leg,
    is.foldl
        (fun (legs : List Leg) (i : ℤ) =>
          pushPieces
            (keptOfLine g poly (g.translate base ((i : ℚ) * spacing_m / 1000) ortho))
            legs)
        legs
      = legs ++ zigzagFrom legs.length
          (is.flatMap fun (i : ℤ) =>
            keptOfLine g poly (g.translate base ((i : ℚ) * spacing_m / 1000) ortho)) := by
  induction is with
  | nil => intro legs; simp [zigzagFrom]
  | cons i rest ih =>
    intro legs
    rw [List.foldl_cons, ih, pushPieces_eq, List.flatMap_cons, zigzagFrom_append]
    simp only [List.length_append, zigzagFrom_length, List.append_assoc]

/-- Claim C7 (amended): within a single grid-builder call, leg direction
alternates strictly by position — the returned leg list is exactly the
zig-zag (from position 0) of the kept pieces in encounter order: the leg
at even position `i` is the `i`-th kept piece (swapped to `[lat, lon]`)
and the leg at odd position `i` is its reversal.  Alternation is indexed
per call, which is why the crosshatch concatenation of two calls need not
alternate globally (see the counterexample). -/
theorem buildGrid_zigzag (g : Geo) (poly : List Point)
    (headingDeg spacing_m : ℚ) (legs : List Leg)
    (h : buildGridInsidePolygon g poly headingDeg spacing_m = some legs) :
    legs = zigzagFrom 0 (keptPieces g poly headingDeg spacing_m) := by
  unfold buildGridInsidePolygon at h
  unfold keptPieces
  cases hs : jsHalfSteps (gridPrep g poly headingDeg spacing_m).cover_m spacing_m with
  | posInf => rw [hs] at h; exact absurd h (by simp)
  | negInf => rw [hs] at h; simp only [Option.some_inj] at h; subst h; rfl
  | nan => rw [hs] at h; simp only [Option.some_inj] at h; subst h; rfl
  | fin n =>
    rw [hs] at h
    simp only [Option.some_inj] at h
    subst h
    show gridRun g poly headingDeg spacing_m n = _
    unfold gridRun keptRun
    rw [gridFold_eq]
    rfl

/-! ## A concrete, fully computable planar geometry

Used to instantiate the abstract geometry in counterexamples and
witnesses: taxicab distance, axis-aligned unit moves for the four cardinal
bearings, arithmetic midpoint, bounding-box point-in-polygon (exact for
the axis-aligned rectangle AOIs used below), and a `lineSplit` that
returns no features, which exercises the source's fallback of keeping the
whole candidate line. -/

/-- Unit direction vector for the four cardinal bearings (degrees), zero
otherwise. -/
def planarDir (b : ℚ) : Point :=
  if b = 0 then (0, 1)
  else if b = 90 then (1, 0)
  else if b = 180 then (0, -1)
  else if b = 270 then (-1, 0)
  else (0, 0)

/-- The concrete planar geometry. -/
def planarGeo : Geo where
  dist p q := |q.1 - p.1| + |q.2 - p.2|
  destination p d b := (p.1 + d * (planarDir b).1, p.2 + d * (planarDir b).2)
  translate line d b :=
    line.map fun p => (p.1 + d * (planarDir b).1, p.2 + d * (planarDir b).2)
  lineSplit _ _ := some []
  midpoint p q := ((p.1 + q.1) / 2, (p.2 + q.2) / 2)
  pointInPolygon p poly :=
    decide ((bboxQ poly).minX ≤ p.1 ∧ p.1 ≤ (bboxQ poly).maxX
      ∧ (bboxQ poly).minY ≤ p.2 ∧ p.2 ≤ (bboxQ poly).maxY)

/-- Axis-aligned square AOI ring (`[lon, lat]`), 0.2 degrees on a side,
closed (first point repeated), 5 entries as the app's validity check
requires. -/
def sqPoly : List Point :=
  [(0, 0), (1/5, 0), (1/5, 1/5), (0, 1/5), (0, 0)]

/-- Taxicab polyline length, a concrete instance of the abstract
`pathLen` used by segmenter witnesses. -/
def taxiLen : List Point → ℚ
  | p :: q :: rest => (|q.1 - p.1| + |q.2 - p.2|) + taxiLen (q :: rest)
  | _ => 0

/-! ## Concrete instances: counterexamples and witnesses -/

unseal Rat.add Rat.mul Rat.inv Rat.sub in
/-- Claim C3 (supporting theorem for the code bug): with the concrete
planar geometry, a non-degenerate square AOI and spacing 0, the grid
builder reaches `halfSteps = Math.ceil(cover / 0) = Infinity` (the
coverage extent of the square is 200 metres, so the numerator is
positive) and its loop never terminates — modelled as `none`.  The spec's
claim that spacing ≤ 0 yields an empty leg list has no counterpart in the
source: `buildGridInsidePolygon` contains no spacing guard, and neither
does its caller. -/
theorem buildGrid_spacing_zero_diverges :
    buildGridInsidePolygon planarGeo sqPoly 0 0 = none := by decide

/-- Legs used for planning when the crosshatch flag is on: the app's
`allLegs = [...legsPrimary, ...legsCross]` with
`legsCross = buildGridInsidePolygon(aoi, (heading + 90) % 360, spacing)`,
at heading 0 and spacing 300 over the square AOI. -/
def crossAllLegs : List Leg :=
  (buildGridInsidePolygon planarGeo sqPoly 0 300).getD []
    ++ (buildGridInsidePolygon planarGeo sqPoly (jsMod (0 + 90) 360) 300).getD []

/-- Kept raw pieces of the two passes, concatenated in the same order. -/
def crossAllKept : List (List Point) :=
  keptPieces planarGeo sqPoly 0 300
    ++ keptPieces planarGeo sqPoly (jsMod (0 + 90) 360) 300

unseal Rat.add Rat.mul Rat.inv Rat.sub in
/-- Claim C7 counterexample: each of the two crosshatch passes keeps
exactly one piece, so the concatenated planning sequence has the
second pass's first leg at (odd) position 1 — but that leg is forward
(equal to its kept piece, swapped to `[lat, lon]`), not reversed, and it
differs from its reversal.  Hence the concatenated sequence is not the
position-alternating zig-zag of its kept pieces: strict positional
alternation fails under crosshatch concatenation. -/
theorem crosshatch_alternation_cex :
    crossAllLegs
        = [[((-3 : ℚ)/10, (1 : ℚ)/10), (1/2, 1/10)],
           [((1 : ℚ)/10, (-3 : ℚ)/10), (1/10, 1/2)]]
      ∧ crossAllLegs.getD 1 [] = (crossAllKept.getD 1 []).map swapPt
      ∧ (crossAllKept.getD 1 []).map swapPt
          ≠ ((crossAllKept.getD 1 []).map swapPt).reverse
      ∧ crossAllLegs ≠ zigzagFrom 0 crossAllKept := by decide

unseal Rat.add Rat.mul Rat.inv Rat.sub in
/-- Witness for the amended C7 theorem at the primary pass of the
counterexample geometry. -/
theorem buildGrid_zigzag_witness :
    buildGridInsidePolygon planarGeo sqPoly 0 300
        = some [[((-3 : ℚ)/10, (1 : ℚ)/10), (1/2, 1/10)]]
      ∧ [[((-3 : ℚ)/10, (1 : ℚ)/10), (1/2, 1/10)]]
        = zigzagFrom 0 (keptPieces planarGeo sqPoly 0 300) :=
  ⟨by decide,
   buildGrid_zigzag planarGeo sqPoly 0 300
     [[((-3 : ℚ)/10, (1 : ℚ)/10), (1/2, 1/10)]] (by decide)⟩

/-- Home point used by the orientation witness. -/
def wHome : Point := (0, 0)

/-- Stitched path used by the orientation witness: home is strictly
closer to the last point, so the oriented path is reversed. -/
def wRaw : List Point := [(5, 0), (1, 1)]

/-- Witness for the C6 theorem at a concrete 2-point path under the
planar taxicab distance. -/
theorem orientedPath_starts_nearer_home_witness :
    2 ≤ wRaw.length
      ∧ ((orientedPathLonLat planarGeo.dist wHome wRaw
            = if planarGeo.dist (wHome.2, wHome.1) ((wRaw.map swapPt).getLastD (0, 0))
                  < planarGeo.dist (wHome.2, wHome.1) ((wRaw.map swapPt).headD (0, 0))
              then (wRaw.map swapPt).reverse
              else wRaw.map swapPt)
          ∧ planarGeo.dist (wHome.2, wHome.1)
              ((orientedPathLonLat planarGeo.dist wHome wRaw).headD (0, 0))
            = min (planarGeo.dist (wHome.2, wHome.1) ((wRaw.map swapPt).headD (0, 0)))
                (planarGeo.dist (wHome.2, wHome.1) ((wRaw.map swapPt).getLastD (0, 0)))) :=
  ⟨by decide, orientedPath_starts_nearer_home planarGeo.dist wHome wRaw (by decide)⟩

/-- The single segment produced by the C4 witness input. -/
def wSeg : Segment := ⟨[[(0, 0), (0, 1)]], [(0, 0), (0, 1)], 1000, 128⟩

unseal Rat.add Rat.mul Rat.inv Rat.sub in
/-- Witness for the C4 theorem: one 1-kilometre leg at 8 m/s with 3 s
turn overhead and a 25-minute cap produces one segment of 128 s, within
the 1440 s effective budget. -/
theorem segmentByCap_budget_witness :
    wSeg ∈ segmentByCap taxiLen 8 3 25 [[(0, 0), (0, 1)]]
      ∧ (wSeg.time_s ≤ max 60 (25 * 60 - 60) ∨ wSeg.legs.length = 1) :=
  ⟨by decide,
   segmentByCap_budget taxiLen 8 3 25 [[(0, 0), (0, 1)]] wSeg (by decide)⟩

/-- The single segment produced by the C9 witness input. -/
def wSeg2 : Segment := ⟨[[(2, 3), (2, 4)]], [(2, 3), (2, 4)], 1000, 128⟩

unseal Rat.add Rat.mul Rat.inv Rat.sub in
/-- Witness for the C9 theorem: a concrete returned segment is
non-empty. -/
theorem segmentByCap_no_empty_segment_witness :
    wSeg2 ∈ segmentByCap taxiLen 8 3 25 [[(2, 3), (2, 4)]]
      ∧ wSeg2.legs ≠ [] :=
  ⟨by decide,
   (segmentByCap_no_empty_segment taxiLen 8 3 25).2 [[(2, 3), (2, 4)]] wSeg2
     (by decide)⟩

end ProjectScoping
